import Mathlib

/-!
Shallow embedding of the core on-chain logic of the RWA tokenization platform:
the asset-token ledger `RWAToken` (contracts/RWAToken.sol), the stable asset
`MockUSDT` (contracts/MockUSDT.sol) and the pledge lifecycle manager
`PledgeManager`.  Solidity `uint256` values are modelled as `Nat`; Solidity 0.8
checked arithmetic reverts (never wraps) on overflow, so no stored value ever
wraps and additions/multiplications are modelled as plain `Nat` operations,
while the one unguarded subtraction (`totalPledgedValue -=`) gets an explicit
underflow guard.  A reverting call is modelled as `Except.error`: the EVM
discards every write of a reverted call, so an errored operation yields no new
state.  Solidity mappings are modelled as association lists with first-match
lookup, a default value for absent keys (Solidity's zero value) and a
key-erasing update, so that reachable maps have pairwise distinct keys.
-/

set_option linter.unusedVariables false

namespace RWA

abbrev Address := Nat

/-- The fixed (nonzero) account address of the deployed PledgeManager
contract, i.e. its `address(this)`. -/
def pmAddr : Address := 1

/-- Internal 18-decimal fixed point scale (`1e18`). -/
def scale : Nat := 10 ^ 18

/-- USDT 6-decimal fixed point scale (`1e6`). -/
def usdtScale : Nat := 10 ^ 6

/-! ## Association maps modelling Solidity mappings -/

/-- First-match lookup in an association list. -/
def mfind {κ ν : Type} [DecidableEq κ] : List (κ × ν) → κ → Option ν
  | [], _ => none
  | (k, v) :: rest, key => if k = key then some v else mfind rest key

/-- Lookup with a default for absent keys (Solidity mappings return the
zero value of the value type for unset keys). -/
def mgetD {κ ν : Type} [DecidableEq κ] (m : List (κ × ν)) (key : κ) (d : ν) : ν :=
  (mfind m key).getD d

/-- Remove every entry with the given key. -/
def mdrop {κ ν : Type} [DecidableEq κ] : List (κ × ν) → κ → List (κ × ν)
  | [], _ => []
  | (k, v) :: rest, key => if k = key then mdrop rest key else (k, v) :: mdrop rest key

/-- Mapping store `m[key] = v`. -/
def mset {κ ν : Type} [DecidableEq κ] (m : List (κ × ν)) (key : κ) (v : ν) : List (κ × ν) :=
  (key, v) :: mdrop m key

/-- The keys of an association list. -/
def keys {κ ν : Type} (m : List (κ × ν)) : List κ := m.map Prod.fst

/-- Pairwise distinct keys. -/
def NodupKeys {κ ν : Type} (m : List (κ × ν)) : Prop := (keys m).Nodup

/-- Sum of an integer measure of the values of a map. -/
def msum {κ ν : Type} (f : ν → Int) (m : List (κ × ν)) : Int :=
  (m.map (fun p => f p.2)).sum

@[simp] theorem mfind_mset_self {κ ν : Type} [DecidableEq κ] (m : List (κ × ν)) (k : κ) (v : ν) :
    mfind (mset m k v) k = some v := by
  simp [mset, mfind]

@[simp] theorem mgetD_mset_self {κ ν : Type} [DecidableEq κ] (m : List (κ × ν)) (k : κ) (v d : ν) :
    mgetD (mset m k v) k d = v := by
  simp [mgetD]

theorem mfind_mdrop_ne {κ ν : Type} [DecidableEq κ] (m : List (κ × ν)) (k k' : κ)
    (h : k' ≠ k) : mfind (mdrop m k) k' = mfind m k' := by
  induction m with
  | nil => rfl
  | cons p rest ih =>
    obtain ⟨a, b⟩ := p
    by_cases hak : a = k
    · subst hak
      simp [mdrop, mfind, Ne.symm h, ih]
    · by_cases hak' : a = k'
      · subst hak'
        simp [mdrop, mfind, hak]
      · simp [mdrop, mfind, hak, hak', ih]

theorem mfind_mset_ne {κ ν : Type} [DecidableEq κ] (m : List (κ × ν)) (k k' : κ) (v : ν)
    (h : k' ≠ k) : mfind (mset m k v) k' = mfind m k' := by
  simp [mset, mfind, Ne.symm h, mfind_mdrop_ne m k k' h]

theorem mgetD_mset_ne {κ ν : Type} [DecidableEq κ] (m : List (κ × ν)) (k k' : κ) (v d : ν)
    (h : k' ≠ k) : mgetD (mset m k v) k' d = mgetD m k' d := by
  simp [mgetD, mfind_mset_ne m k k' v h]

theorem mem_keys_mdrop {κ ν : Type} [DecidableEq κ] {m : List (κ × ν)} {k a : κ}
    (h : a ∈ keys (mdrop m k)) : a ∈ keys m ∧ a ≠ k := by
  induction m with
  | nil => simp [mdrop, keys] at h
  | cons p rest ih =>
    obtain ⟨b, c⟩ := p
    by_cases hbk : b = k
    · subst hbk
      simp only [mdrop, if_pos rfl] at h
      rcases ih h with ⟨h1, h2⟩
      exact ⟨by simp [keys]; right; simpa [keys] using h1, h2⟩
    · simp only [mdrop, if_neg hbk] at h
      simp only [keys, List.map_cons, List.mem_cons] at h
      rcases h with h | h
      · subst h
        exact ⟨by simp [keys], hbk⟩
      · rcases ih (by simpa [keys] using h) with ⟨h1, h2⟩
        exact ⟨by simp [keys]; right; simpa [keys] using h1, h2⟩

theorem not_mem_keys_mdrop_self {κ ν : Type} [DecidableEq κ] (m : List (κ × ν)) (k : κ) :
    k ∉ keys (mdrop m k) := by
  intro h
  exact (mem_keys_mdrop h).2 rfl

theorem nodupKeys_mdrop {κ ν : Type} [DecidableEq κ] {m : List (κ × ν)} (k : κ)
    (h : NodupKeys m) : NodupKeys (mdrop m k) := by
  induction m with
  | nil => simpa [mdrop] using h
  | cons p rest ih =>
    obtain ⟨b, c⟩ := p
    simp only [NodupKeys, keys, List.map_cons, List.nodup_cons] at h
    rcases h with ⟨hb, hrest⟩
    by_cases hbk : b = k
    · subst hbk
      simpa [mdrop] using ih hrest
    · simp only [mdrop, if_neg hbk]
      simp only [NodupKeys, keys, List.map_cons, List.nodup_cons]
      refine ⟨?_, ih hrest⟩
      intro hmem
      exact hb ((mem_keys_mdrop (by simpa [keys] using hmem)).1)

theorem nodupKeys_mset {κ ν : Type} [DecidableEq κ] {m : List (κ × ν)} (k : κ) (v : ν)
    (h : NodupKeys m) : NodupKeys (mset m k v) := by
  simp only [mset, NodupKeys, keys, List.map_cons, List.nodup_cons]
  exact ⟨not_mem_keys_mdrop_self m k, nodupKeys_mdrop k h⟩

theorem mdrop_of_not_mem {κ ν : Type} [DecidableEq κ] {m : List (κ × ν)} {k : κ}
    (h : k ∉ keys m) : mdrop m k = m := by
  induction m with
  | nil => rfl
  | cons p rest ih =>
    obtain ⟨b, c⟩ := p
    simp only [keys, List.map_cons, List.mem_cons, not_or] at h
    simp [mdrop, Ne.symm h.1, ih (by simpa [keys] using h.2)]

theorem mfind_of_not_mem {κ ν : Type} [DecidableEq κ] {m : List (κ × ν)} {k : κ}
    (h : k ∉ keys m) : mfind m k = none := by
  induction m with
  | nil => rfl
  | cons p rest ih =>
    obtain ⟨b, c⟩ := p
    simp only [keys, List.map_cons, List.mem_cons, not_or] at h
    simp [mfind, Ne.symm h.1, ih (by simpa [keys] using h.2)]

theorem mgetD_of_not_mem {κ ν : Type} [DecidableEq κ] {m : List (κ × ν)} {k : κ} (d : ν)
    (h : k ∉ keys m) : mgetD m k d = d := by
  simp [mgetD, mfind_of_not_mem h]

theorem msum_mdrop {κ ν : Type} [DecidableEq κ] (f : ν → Int) (d : ν) (hd : f d = 0)
    {m : List (κ × ν)} (k : κ) (h : NodupKeys m) :
    msum f (mdrop m k) = msum f m - f (mgetD m k d) := by
  induction m with
  | nil => simp [mdrop, msum, mgetD, mfind, hd]
  | cons p rest ih =>
    obtain ⟨b, c⟩ := p
    simp only [NodupKeys, keys, List.map_cons, List.nodup_cons] at h
    rcases h with ⟨hb, hrest⟩
    by_cases hbk : b = k
    · subst hbk
      have hdrop : mdrop rest b = rest := mdrop_of_not_mem (by simpa [keys] using hb)
      simp [mdrop, mgetD, mfind, hdrop, msum]
    · have := ih hrest
      simp only [mdrop, if_neg hbk]
      simp only [msum, List.map_cons, List.sum_cons] at this ⊢
      rw [this]
      simp [mgetD, mfind, hbk]
      ring

theorem msum_mset {κ ν : Type} [DecidableEq κ] (f : ν → Int) (d : ν) (hd : f d = 0)
    {m : List (κ × ν)} (k : κ) (v : ν) (h : NodupKeys m) :
    msum f (mset m k v) = msum f m + f v - f (mgetD m k d) := by
  simp only [mset, msum, List.map_cons, List.sum_cons]
  have := msum_mdrop f d hd k h
  simp only [msum] at this
  rw [this]
  ring

theorem mem_of_mem_mdrop {κ ν : Type} [DecidableEq κ] {m : List (κ × ν)} {k : κ}
    {p : κ × ν} (h : p ∈ mdrop m k) : p ∈ m := by
  induction m with
  | nil => simp [mdrop] at h
  | cons q rest ih =>
    obtain ⟨b, c⟩ := q
    by_cases hbk : b = k
    · subst hbk
      simp only [mdrop, if_pos rfl] at h
      exact List.mem_cons_of_mem _ (ih h)
    · simp only [mdrop, if_neg hbk, List.mem_cons] at h
      rcases h with h | h
      · exact h ▸ List.mem_cons_self _ _
      · exact List.mem_cons_of_mem _ (ih h)

theorem mgetD_ne_default_mem {κ ν : Type} [DecidableEq κ] {m : List (κ × ν)} {k : κ} {d : ν}
    (h : mgetD m k d ≠ d) : (k, mgetD m k d) ∈ m := by
  induction m with
  | nil => simp [mgetD, mfind] at h
  | cons p rest ih =>
    obtain ⟨b, c⟩ := p
    by_cases hbk : b = k
    · subst hbk
      simp [mgetD, mfind]
    · simp only [mgetD, mfind, if_neg hbk] at h ⊢
      exact List.mem_cons_of_mem _ (ih h)

/-! ## Roles and errors -/

/-- Access-control roles across both contracts: `DEFAULT_ADMIN_ROLE`,
`MINTER_ROLE`, `PAUSER_ROLE`, `PLEDGE_MANAGER_ROLE` (RWAToken) and
`OPERATOR_ROLE`, `FINANCE_ROLE` (PledgeManager). -/
inductive Role where
  | admin
  | minter
  | pauser
  | pledgeManager
  | operator
  | finance
deriving Repr, DecidableEq

/-- `hasRole` of OpenZeppelin AccessControl: membership in the role set. -/
def hasRole (roles : List (Role × Address)) (r : Role) (a : Address) : Prop :=
  (r, a) ∈ roles

instance (roles : List (Role × Address)) (r : Role) (a : Address) :
    Decidable (hasRole roles r a) := by
  unfold hasRole
  infer_instance

/-- `_grantRole`: add the pair unless already present. -/
def grantRoleSet (roles : List (Role × Address)) (r : Role) (a : Address) :
    List (Role × Address) :=
  if hasRole roles r a then roles else (r, a) :: roles

/-- `_revokeRole`: remove the pair. -/
def revokeRoleSet (roles : List (Role × Address)) (r : Role) (a : Address) :
    List (Role × Address) :=
  roles.filter (fun p => decide (p ≠ (r, a)))

/-- Revert reasons of the embedded operations, one per distinct `require` /
panic site.  `duplicateAsset`, `duplicateAgreement` are the spec's
`DuplicateIdentifier`; `insufficientLiquidity` is "Insufficient USDT balance";
`insufficientTokens` is "Insufficient tokens available". -/
inductive Err where
  | unauthorized
  | systemPaused
  | notPaused
  | invalidInput
  | duplicateAsset
  | duplicateAgreement
  | assetNotFound
  | assetInactive
  | insufficientBalance
  | insufficientAllowance
  | zeroAddress
  | arithUnderflow
  | invalidRate
  | invalidSpread
  | insufficientLiquidity
  | insufficientTokens
  | agreementNotFound
  | agreementNotActive
  | exceedsRevenue
  | faucetLimit
deriving Repr, DecidableEq

/-- Run an operation with EVM revert semantics made explicit: an error leaves
the pre-state in force. -/
def tryOp {σ : Type} (s : σ) (r : Except Err σ) : σ × Option Err :=
  match r with
  | .ok s' => (s', none)
  | .error e => (s, some e)

/-! ## ERC20 balances (OpenZeppelin `_transfer` / `_spendAllowance`) -/

/-- `balanceOf`. -/
def bal (m : List (Address × Nat)) (a : Address) : Nat := mgetD m a 0

/-- `type(uint256).max`, the infinite-allowance sentinel. -/
def UMAX : Nat := 2 ^ 256 - 1

/-- OZ `_transfer` with the `_beforeTokenTransfer` pause hook (the hook is
active for RWAToken, absent for MockUSDT where `paused := false` is passed):
checks sender and recipient are nonzero, the pause flag, and the sender
balance, then moves the amount. -/
def erc20Transfer (paused : Bool) (m : List (Address × Nat)) (src dst : Address)
    (amount : Nat) : Except Err (List (Address × Nat)) :=
  if src = 0 then .error .zeroAddress
  else if dst = 0 then .error .zeroAddress
  else if paused then .error .systemPaused
  else if bal m src < amount then .error .insufficientBalance
  else
    let m1 := mset m src (bal m src - amount)
    .ok (mset m1 dst (bal m1 dst + amount))

/-- OZ `_spendAllowance owner spender amount`. -/
def spendAllowance (al : List ((Address × Address) × Nat)) (owner spender : Address)
    (amount : Nat) : Except Err (List ((Address × Address) × Nat)) :=
  let cur := mgetD al (owner, spender) 0
  if cur = UMAX then .ok al
  else if cur < amount then .error .insufficientAllowance
  else if owner = 0 then .error .zeroAddress
  else if spender = 0 then .error .zeroAddress
  else .ok (mset al (owner, spender) (cur - amount))

/-- OZ `_approve`. -/
def erc20Approve (al : List ((Address × Address) × Nat)) (owner spender : Address)
    (amount : Nat) : Except Err (List ((Address × Address) × Nat)) :=
  if owner = 0 then .error .zeroAddress
  else if spender = 0 then .error .zeroAddress
  else .ok (mset al (owner, spender) amount)

/-! ## RWAToken (contracts/RWAToken.sol) -/

/-- `AssetInfo` of RWAToken.sol.  `tokensRedeemed` is a ghost history field
(not present in the contract's storage): it accumulates the amounts burned by
`releaseAsset` calls naming this asset, which the conservation claim refers
to; it influences no control flow. -/
structure AssetInfo where
  assetType : String
  description : String
  originalValue : Nat
  pledgedValue : Nat
  assetId : String
  pledger : Address
  pledgeTimestamp : Nat
  isActive : Bool
  tokensRedeemed : Nat
deriving Repr, DecidableEq

/-- The Solidity zero value of `AssetInfo`, returned by the `assets` mapping
for unset token ids. -/
def zeroAsset : AssetInfo :=
  { assetType := "", description := "", originalValue := 0, pledgedValue := 0,
    assetId := "", pledger := 0, pledgeTimestamp := 0, isActive := false,
    tokensRedeemed := 0 }

/-- Storage of the RWAToken contract (asset registry + ERC20 ledger +
AccessControl + Pausable). -/
structure TokenState where
  assets : List (Nat × AssetInfo)
  assetIdToTokenId : List (String × Nat)
  currentTokenId : Nat
  totalPledgedValue : Nat
  discountRate : Nat
  balances : List (Address × Nat)
  allowances : List ((Address × Address) × Nat)
  paused : Bool
  roles : List (Role × Address)
deriving Repr, DecidableEq

/-- RWAToken constructor: the given admin receives every role, the token id
counter starts at 1 and the discount rate at 70. -/
def initToken (admin : Address) : TokenState :=
  { assets := [], assetIdToTokenId := [], currentTokenId := 1,
    totalPledgedValue := 0, discountRate := 70, balances := [], allowances := [],
    paused := false,
    roles := [(.admin, admin), (.minter, admin), (.pauser, admin), (.pledgeManager, admin)] }

/-- `pledgeAsset` (RWAToken.sol lines 85-128).  Checks, in source order:
`PLEDGE_MANAGER_ROLE`, not paused, nonempty asset id, asset id unused, nonzero
pledger, positive value; then stores the asset record, bumps the counter and
the pledged-value accumulator, and mints `pledgedValue / 1e18` to the pledger.
Returns the new state together with the emitted `tokensIssued`. -/
def pledgeAsset (s : TokenState) (caller : Address) (now : Nat)
    (assetId assetType description : String) (originalValue : Nat)
    (pledger : Address) : Except Err (TokenState × Nat) :=
  if ¬ hasRole s.roles .pledgeManager caller then .error .unauthorized
  else if s.paused then .error .systemPaused
  else if assetId = "" then .error .invalidInput
  else if mgetD s.assetIdToTokenId assetId 0 ≠ 0 then .error .duplicateAsset
  else if pledger = 0 then .error .invalidInput
  else if originalValue = 0 then .error .invalidInput
  else
    let tokenId := s.currentTokenId
    let pledgedValue := originalValue * s.discountRate / 100
    let tokensToIssue := pledgedValue / scale
    let info : AssetInfo :=
      { assetType := assetType, description := description,
        originalValue := originalValue, pledgedValue := pledgedValue,
        assetId := assetId, pledger := pledger, pledgeTimestamp := now,
        isActive := true, tokensRedeemed := 0 }
    .ok ({ s with
            assets := mset s.assets tokenId info,
            assetIdToTokenId := mset s.assetIdToTokenId assetId tokenId,
            currentTokenId := tokenId + 1,
            totalPledgedValue := s.totalPledgedValue + pledgedValue,
            balances := mset s.balances pledger (bal s.balances pledger + tokensToIssue) },
         tokensToIssue)

/-- `releaseAsset` (RWAToken.sol lines 136-157).  Checks role, pause flag,
asset existence, the `isActive` flag and the holder balance, then burns
`tokensToRedeem`; if the redeemed amount covers the issued amount
(`pledgedValue / 1e18`) it flips `isActive` and subtracts `pledgedValue` from
the accumulator (checked subtraction).  The `tokenHolder ≠ 0` check is OZ
`_burn`'s zero-address guard. -/
def releaseAsset (s : TokenState) (caller : Address) (assetId : String)
    (tokenHolder : Address) (tokensToRedeem : Nat) : Except Err TokenState :=
  if ¬ hasRole s.roles .pledgeManager caller then .error .unauthorized
  else if s.paused then .error .systemPaused
  else
    let tokenId := mgetD s.assetIdToTokenId assetId 0
    if tokenId = 0 then .error .assetNotFound
    else
      let asset := mgetD s.assets tokenId zeroAsset
      if ¬ asset.isActive then .error .assetInactive
      else if bal s.balances tokenHolder < tokensToRedeem then .error .insufficientBalance
      else if tokenHolder = 0 then .error .zeroAddress
      else
        let balances1 := mset s.balances tokenHolder (bal s.balances tokenHolder - tokensToRedeem)
        let asset1 := { asset with tokensRedeemed := asset.tokensRedeemed + tokensToRedeem }
        let expectedTokens := asset.pledgedValue / scale
        if expectedTokens ≤ tokensToRedeem then
          if asset.pledgedValue ≤ s.totalPledgedValue then
            .ok { s with
                  balances := balances1,
                  assets := mset s.assets tokenId { asset1 with isActive := false },
                  totalPledgedValue := s.totalPledgedValue - asset.pledgedValue }
          else .error .arithUnderflow
        else
          .ok { s with balances := balances1, assets := mset s.assets tokenId asset1 }

/-- ERC20 `transfer` on the RWAToken ledger (pause hook active). -/
def tokenTransfer (s : TokenState) (caller dst : Address) (amount : Nat) :
    Except Err TokenState :=
  match erc20Transfer s.paused s.balances caller dst amount with
  | .error e => .error e
  | .ok b => .ok { s with balances := b }

/-- ERC20 `approve` on the RWAToken ledger. -/
def tokenApprove (s : TokenState) (caller spender : Address) (amount : Nat) :
    Except Err TokenState :=
  match erc20Approve s.allowances caller spender amount with
  | .error e => .error e
  | .ok al => .ok { s with allowances := al }

/-- ERC20 `transferFrom` on the RWAToken ledger. -/
def tokenTransferFrom (s : TokenState) (caller src dst : Address) (amount : Nat) :
    Except Err TokenState :=
  match spendAllowance s.allowances src caller amount with
  | .error e => .error e
  | .ok al =>
    match erc20Transfer s.paused s.balances src dst amount with
    | .error e => .error e
    | .ok b => .ok { s with allowances := al, balances := b }

/-- `setDiscountRate` (RWAToken.sol lines 163-168): admin only,
`0 < newRate ≤ 100`, affects only future pledges. -/
def setDiscountRate (s : TokenState) (caller : Address) (newRate : Nat) :
    Except Err TokenState :=
  if ¬ hasRole s.roles .admin caller then .error .unauthorized
  else if ¬ (0 < newRate ∧ newRate ≤ 100) then .error .invalidRate
  else .ok { s with discountRate := newRate }

/-- RWAToken `pause` (`PAUSER_ROLE`; OZ `_pause` reverts when already
paused). -/
def tokenPause (s : TokenState) (caller : Address) : Except Err TokenState :=
  if ¬ hasRole s.roles .pauser caller then .error .unauthorized
  else if s.paused then .error .systemPaused
  else .ok { s with paused := true }

/-- RWAToken `unpause` (`PAUSER_ROLE`; OZ `_unpause` reverts when not
paused). -/
def tokenUnpause (s : TokenState) (caller : Address) : Except Err TokenState :=
  if ¬ hasRole s.roles .pauser caller then .error .unauthorized
  else if ¬ s.paused then .error .notPaused
  else .ok { s with paused := false }

/-- AccessControl `grantRole` on RWAToken (role admin is
`DEFAULT_ADMIN_ROLE` for every role). -/
def tokenGrantRole (s : TokenState) (caller : Address) (r : Role) (a : Address) :
    Except Err TokenState :=
  if ¬ hasRole s.roles .admin caller then .error .unauthorized
  else .ok { s with roles := grantRoleSet s.roles r a }

/-- AccessControl `revokeRole` on RWAToken. -/
def tokenRevokeRole (s : TokenState) (caller : Address) (r : Role) (a : Address) :
    Except Err TokenState :=
  if ¬ hasRole s.roles .admin caller then .error .unauthorized
  else .ok { s with roles := revokeRoleSet s.roles r a }

/-! ## MockUSDT (contracts/MockUSDT.sol) -/

/-- Storage of the MockUSDT contract: a plain ERC20 (no pause hook) with an
`Ownable` owner. -/
structure UsdtState where
  balances : List (Address × Nat)
  allowances : List ((Address × Address) × Nat)
  owner : Address
deriving Repr, DecidableEq

/-- MockUSDT constructor: mints 1,000,000 USDT (6 decimals) to the
deployer, who becomes owner. -/
def initUsdt (deployer : Address) : UsdtState :=
  { balances := [(deployer, 1000000 * usdtScale)], allowances := [], owner := deployer }

/-- USDT `transfer`. -/
def usdtTransfer (s : UsdtState) (caller dst : Address) (amount : Nat) :
    Except Err UsdtState :=
  match erc20Transfer false s.balances caller dst amount with
  | .error e => .error e
  | .ok b => .ok { s with balances := b }

/-- USDT `approve`. -/
def usdtApprove (s : UsdtState) (caller spender : Address) (amount : Nat) :
    Except Err UsdtState :=
  match erc20Approve s.allowances caller spender amount with
  | .error e => .error e
  | .ok al => .ok { s with allowances := al }

/-- USDT `transferFrom`. -/
def usdtTransferFrom (s : UsdtState) (caller src dst : Address) (amount : Nat) :
    Except Err UsdtState :=
  match spendAllowance s.allowances src caller amount with
  | .error e => .error e
  | .ok al =>
    match erc20Transfer false s.balances src dst amount with
    | .error e => .error e
    | .ok b => .ok { s with allowances := al, balances := b }

/-- MockUSDT `faucet`: anyone may mint up to 10,000 USDT to themselves
(OZ `_mint` rejects the zero address). -/
def usdtFaucet (s : UsdtState) (caller : Address) (amount : Nat) :
    Except Err UsdtState :=
  if ¬ amount ≤ 10000 * usdtScale then .error .faucetLimit
  else if caller = 0 then .error .zeroAddress
  else .ok { s with balances := mset s.balances caller (bal s.balances caller + amount) }

/-! ## PledgeManager -/

/-- `PledgeStatus` enum. -/
inductive PledgeStatus where
  | PENDING
  | ACTIVE
  | REPAID
  | DEFAULTED
  | RELEASED
deriving Repr, DecidableEq

/-- `PledgeAgreement` struct of the PledgeManager. -/
structure PledgeAgreement where
  agreementId : String
  client : Address
  assetId : String
  assetType : String
  description : String
  originalValue : Nat
  discountedValue : Nat
  tokensIssued : Nat
  clientPayment : Nat
  timestamp : Nat
  status : PledgeStatus
  documentHash : String
deriving Repr, DecidableEq

/-- Solidity zero value of `PledgeAgreement` (in particular `timestamp = 0`,
which the contract uses as its existence test). -/
def zeroAgreement : PledgeAgreement :=
  { agreementId := "", client := 0, assetId := "", assetType := "",
    description := "", originalValue := 0, discountedValue := 0,
    tokensIssued := 0, clientPayment := 0, timestamp := 0,
    status := .PENDING, documentHash := "" }

/-- `InvestorPurchase` struct of the PledgeManager. -/
structure InvestorPurchase where
  investor : Address
  tokenAmount : Nat
  usdtPaid : Nat
  timestamp : Nat
  purchaseId : String
deriving Repr, DecidableEq

/-- Storage of the PledgeManager contract. -/
structure PMState where
  pledgeAgreements : List (String × PledgeAgreement)
  assetInvestors : List (String × List InvestorPurchase)
  clientPledges : List (Address × List String)
  investorPurchases : List (Address × List String)
  totalClientPayments : Nat
  totalInvestorPayments : Nat
  platformRevenue : Nat
  spreadPercentage : Nat
  paused : Bool
  roles : List (Role × Address)
deriving Repr, DecidableEq

/-- PledgeManager constructor: admin (and the deployer, when distinct) gets
`DEFAULT_ADMIN_ROLE`, `OPERATOR_ROLE` and `FINANCE_ROLE`; the spread starts at
15%. -/
def initPM (admin deployer : Address) : PMState :=
  { pledgeAgreements := [], assetInvestors := [], clientPledges := [],
    investorPurchases := [], totalClientPayments := 0, totalInvestorPayments := 0,
    platformRevenue := 0, spreadPercentage := 15, paused := false,
    roles :=
      if admin = deployer then
        [(.admin, admin), (.operator, admin), (.finance, admin)]
      else
        [(.admin, admin), (.operator, admin), (.finance, admin),
         (.admin, deployer), (.operator, deployer), (.finance, deployer)] }

/-- The whole deployed system: the two token contracts and the manager. -/
structure SysState where
  token : TokenState
  usdt : UsdtState
  pm : PMState
deriving Repr, DecidableEq

/-- Fresh deployment (the system as constructed; the
`PLEDGE_MANAGER_ROLE` grant to the manager is a separate transaction, as in
scripts/grant-roles.js). -/
def initSys (admin deployer : Address) : SysState :=
  { token := initToken admin, usdt := initUsdt deployer, pm := initPM admin deployer }

/-- `createPledge` (PledgeManager lines 132-179).  Checks `OPERATOR_ROLE`,
the manager's pause flag, a nonempty agreement id, a nonzero client, a
positive value and that no agreement with this id exists (`timestamp == 0`);
computes `discountedValue` from the token's current discount rate and
`clientPayment` from the current spread; stores the agreement (status
`PENDING`), appends to the client index, calls `RWAToken.pledgeAsset` with the
manager itself as pledger, then flips the stored status to `ACTIVE`.  A
failure of the nested `pledgeAsset` reverts the whole call. -/
def createPledge (s : SysState) (caller : Address) (now : Nat)
    (agreementId : String) (client : Address)
    (assetId assetType description : String) (originalValue : Nat)
    (documentHash : String) : Except Err SysState :=
  if ¬ hasRole s.pm.roles .operator caller then .error .unauthorized
  else if s.pm.paused then .error .systemPaused
  else if agreementId = "" then .error .invalidInput
  else if client = 0 then .error .invalidInput
  else if originalValue = 0 then .error .invalidInput
  else if (mgetD s.pm.pledgeAgreements agreementId zeroAgreement).timestamp ≠ 0 then
    .error .duplicateAgreement
  else
    let discountRate := s.token.discountRate
    let discountedValue := originalValue * discountRate / 100
    let clientPayment := discountedValue * (100 - s.pm.spreadPercentage) / 100
    let agr : PledgeAgreement :=
      { agreementId := agreementId, client := client, assetId := assetId,
        assetType := assetType, description := description,
        originalValue := originalValue, discountedValue := discountedValue,
        tokensIssued := discountedValue / scale, clientPayment := clientPayment,
        timestamp := now, status := .PENDING, documentHash := documentHash }
    match pledgeAsset s.token pmAddr now assetId assetType description originalValue pmAddr with
    | .error e => .error e
    | .ok (t1, _) =>
      .ok { s with
            token := t1,
            pm := { s.pm with
                    pledgeAgreements :=
                      mset (mset s.pm.pledgeAgreements agreementId agr) agreementId
                        { agr with status := .ACTIVE },
                    clientPledges :=
                      mset s.pm.clientPledges client
                        (mgetD s.pm.clientPledges client [] ++ [agreementId]) } }

/-- `payClient` (PledgeManager lines 185-199).  Checks `FINANCE_ROLE` (no
pause check in the source), existence (`timestamp != 0`), `ACTIVE` status and
the manager's USDT balance, then transfers `clientPayment` to the client and
bumps `totalClientPayments`.  The agreement record itself is not modified. -/
def payClient (s : SysState) (caller : Address) (agreementId : String) :
    Except Err SysState :=
  if ¬ hasRole s.pm.roles .finance caller then .error .unauthorized
  else
    let pledge := mgetD s.pm.pledgeAgreements agreementId zeroAgreement
    if pledge.timestamp = 0 then .error .agreementNotFound
    else if pledge.status ≠ .ACTIVE then .error .agreementNotActive
    else
      let paymentAmount := pledge.clientPayment
      if bal s.usdt.balances pmAddr < paymentAmount then .error .insufficientLiquidity
      else
        match erc20Transfer false s.usdt.balances pmAddr pledge.client paymentAmount with
        | .error e => .error e
        | .ok b =>
          .ok { s with
                usdt := { s.usdt with balances := b },
                pm := { s.pm with
                        totalClientPayments := s.pm.totalClientPayments + paymentAmount } }

/-- `purchaseTokens` (PledgeManager lines 207-246).  Checks the pause flag,
existence, `ACTIVE` status, a positive amount and the manager's token
balance; pulls `tokenAmount * 1e6` USDT from the investor, sends
`tokenAmount` RWA tokens to the investor, appends the purchase record (no
uniqueness check on `purchaseId`), updates both investor indices and the
revenue accumulators. -/
def purchaseTokens (s : SysState) (caller : Address) (now : Nat)
    (agreementId : String) (tokenAmount : Nat) (purchaseId : String) :
    Except Err SysState :=
  if s.pm.paused then .error .systemPaused
  else
    let pledge := mgetD s.pm.pledgeAgreements agreementId zeroAgreement
    if pledge.timestamp = 0 then .error .agreementNotFound
    else if pledge.status ≠ .ACTIVE then .error .agreementNotActive
    else if tokenAmount = 0 then .error .invalidInput
    else if bal s.token.balances pmAddr < tokenAmount then .error .insufficientTokens
    else
      let usdtRequired := tokenAmount * usdtScale
      match usdtTransferFrom s.usdt pmAddr caller pmAddr usdtRequired with
      | .error e => .error e
      | .ok u1 =>
        match tokenTransfer s.token pmAddr caller tokenAmount with
        | .error e => .error e
        | .ok t1 =>
          let purchase : InvestorPurchase :=
            { investor := caller, tokenAmount := tokenAmount,
              usdtPaid := usdtRequired, timestamp := now, purchaseId := purchaseId }
          .ok { s with
                token := t1,
                usdt := u1,
                pm := { s.pm with
                        assetInvestors :=
                          mset s.pm.assetInvestors agreementId
                            (mgetD s.pm.assetInvestors agreementId [] ++ [purchase]),
                        investorPurchases :=
                          mset s.pm.investorPurchases caller
                            (mgetD s.pm.investorPurchases caller [] ++ [agreementId]),
                        totalInvestorPayments := s.pm.totalInvestorPayments + usdtRequired,
                        platformRevenue :=
                          s.pm.platformRevenue + usdtRequired * s.pm.spreadPercentage / 100 } }

/-- `repayPledge` (PledgeManager lines 253-272).  Checks `FINANCE_ROLE`,
existence and `ACTIVE` status; pulls the repayment from the client, sets the
status to `REPAID` and releases the asset for the full `tokensIssued` amount
from the manager's own balance.  Any nested failure reverts everything. -/
def repayPledge (s : SysState) (caller : Address) (agreementId : String)
    (repaymentAmount : Nat) : Except Err SysState :=
  if ¬ hasRole s.pm.roles .finance caller then .error .unauthorized
  else
    let pledge := mgetD s.pm.pledgeAgreements agreementId zeroAgreement
    if pledge.timestamp = 0 then .error .agreementNotFound
    else if pledge.status ≠ .ACTIVE then .error .agreementNotActive
    else
      match usdtTransferFrom s.usdt pmAddr pledge.client pmAddr repaymentAmount with
      | .error e => .error e
      | .ok u1 =>
        match releaseAsset s.token pmAddr pledge.assetId pmAddr pledge.tokensIssued with
        | .error e => .error e
        | .ok t1 =>
          .ok { s with
                token := t1,
                usdt := u1,
                pm := { s.pm with
                        pledgeAgreements :=
                          mset s.pm.pledgeAgreements agreementId
                            { pledge with status := .REPAID } } }

/-- `setSpreadPercentage` (PledgeManager lines 305-310): admin only, at most
50, affects only future pledges. -/
def setSpreadPercentage (s : SysState) (caller : Address) (newSpread : Nat) :
    Except Err SysState :=
  if ¬ hasRole s.pm.roles .admin caller then .error .unauthorized
  else if ¬ newSpread ≤ 50 then .error .invalidSpread
  else .ok { s with pm := { s.pm with spreadPercentage := newSpread } }

/-- `withdrawRevenue` (PledgeManager lines 315-320): finance role, nonzero
recipient, amount within accumulated revenue; transfers USDT out and
decrements the revenue accumulator. -/
def withdrawRevenue (s : SysState) (caller : Address) (dst : Address) (amount : Nat) :
    Except Err SysState :=
  if ¬ hasRole s.pm.roles .finance caller then .error .unauthorized
  else if dst = 0 then .error .invalidInput
  else if ¬ amount ≤ s.pm.platformRevenue then .error .exceedsRevenue
  else
    match erc20Transfer false s.usdt.balances pmAddr dst amount with
    | .error e => .error e
    | .ok b =>
      .ok { s with
            usdt := { s.usdt with balances := b },
            pm := { s.pm with platformRevenue := s.pm.platformRevenue - amount } }

/-- PledgeManager `pause` (admin only; OZ `_pause` reverts when already
paused). -/
def pmPause (s : SysState) (caller : Address) : Except Err SysState :=
  if ¬ hasRole s.pm.roles .admin caller then .error .unauthorized
  else if s.pm.paused then .error .systemPaused
  else .ok { s with pm := { s.pm with paused := true } }

/-- PledgeManager `unpause` (admin only). -/
def pmUnpause (s : SysState) (caller : Address) : Except Err SysState :=
  if ¬ hasRole s.pm.roles .admin caller then .error .unauthorized
  else if ¬ s.pm.paused then .error .notPaused
  else .ok { s with pm := { s.pm with paused := false } }

/-- PledgeManager `grantRole` (also the `grantOperatorRole` /
`grantFinanceRole` wrappers): admin only. -/
def pmGrantRole (s : SysState) (caller : Address) (r : Role) (a : Address) :
    Except Err SysState :=
  if ¬ hasRole s.pm.roles .admin caller then .error .unauthorized
  else .ok { s with pm := { s.pm with roles := grantRoleSet s.pm.roles r a } }

/-- PledgeManager `revokeRole` (also the `revokeOperatorRole` /
`revokeFinanceRole` wrappers): admin only. -/
def pmRevokeRole (s : SysState) (caller : Address) (r : Role) (a : Address) :
    Except Err SysState :=
  if ¬ hasRole s.pm.roles .admin caller then .error .unauthorized
  else .ok { s with pm := { s.pm with roles := revokeRoleSet s.pm.roles r a } }

/-! ## Step relations -/

/-- The external entrypoints of the AssetLedger (RWAToken), each carrying its
caller and arguments. -/
inductive TokenOp where
  | pledge (caller : Address) (now : Nat) (assetId assetType description : String)
      (originalValue : Nat) (pledger : Address)
  | release (caller : Address) (assetId : String) (holder : Address) (amount : Nat)
  | transfer (caller dst : Address) (amount : Nat)
  | approve (caller spender : Address) (amount : Nat)
  | transferFrom (caller src dst : Address) (amount : Nat)
  | setRate (caller : Address) (rate : Nat)
  | pause (caller : Address)
  | unpause (caller : Address)
  | grant (caller : Address) (r : Role) (a : Address)
  | revoke (caller : Address) (r : Role) (a : Address)
deriving Repr

/-- Apply one AssetLedger entrypoint. -/
def applyTokenOp (s : TokenState) : TokenOp → Except Err TokenState
  | .pledge caller now assetId assetType description originalValue pledger =>
    match pledgeAsset s caller now assetId assetType description originalValue pledger with
    | .error e => .error e
    | .ok p => .ok p.1
  | .release caller assetId holder amount => releaseAsset s caller assetId holder amount
  | .transfer caller dst amount => tokenTransfer s caller dst amount
  | .approve caller spender amount => tokenApprove s caller spender amount
  | .transferFrom caller src dst amount => tokenTransferFrom s caller src dst amount
  | .setRate caller rate => setDiscountRate s caller rate
  | .pause caller => tokenPause s caller
  | .unpause caller => tokenUnpause s caller
  | .grant caller r a => tokenGrantRole s caller r a
  | .revoke caller r a => tokenRevokeRole s caller r a

/-- Ledger states reachable from deployment by successful entrypoint calls. -/
inductive TokenReachable (admin : Address) : TokenState → Prop where
  | base : TokenReachable admin (initToken admin)
  | step (s s' : TokenState) (op : TokenOp) (hr : TokenReachable admin s)
      (hs : applyTokenOp s op = .ok s') : TokenReachable admin s'

/-- Every external entrypoint of the deployed system. -/
inductive SysOp where
  | tok (op : TokenOp)
  | uTransfer (caller dst : Address) (amount : Nat)
  | uApprove (caller spender : Address) (amount : Nat)
  | uTransferFrom (caller src dst : Address) (amount : Nat)
  | uFaucet (caller : Address) (amount : Nat)
  | create (caller : Address) (now : Nat) (agreementId : String) (client : Address)
      (assetId assetType description : String) (originalValue : Nat) (documentHash : String)
  | pay (caller : Address) (agreementId : String)
  | purchase (caller : Address) (now : Nat) (agreementId : String)
      (tokenAmount : Nat) (purchaseId : String)
  | repay (caller : Address) (agreementId : String) (amount : Nat)
  | setSpread (caller : Address) (v : Nat)
  | withdraw (caller dst : Address) (amount : Nat)
  | pmGrant (caller : Address) (r : Role) (a : Address)
  | pmRevoke (caller : Address) (r : Role) (a : Address)
  | pmDoPause (caller : Address)
  | pmDoUnpause (caller : Address)
deriving Repr

/-- Apply one system entrypoint. -/
def sysStep (s : SysState) : SysOp → Except Err SysState
  | .tok op =>
    match applyTokenOp s.token op with
    | .error e => .error e
    | .ok t1 => .ok { s with token := t1 }
  | .uTransfer caller dst amount =>
    match usdtTransfer s.usdt caller dst amount with
    | .error e => .error e
    | .ok u1 => .ok { s with usdt := u1 }
  | .uApprove caller spender amount =>
    match usdtApprove s.usdt caller spender amount with
    | .error e => .error e
    | .ok u1 => .ok { s with usdt := u1 }
  | .uTransferFrom caller src dst amount =>
    match usdtTransferFrom s.usdt caller src dst amount with
    | .error e => .error e
    | .ok u1 => .ok { s with usdt := u1 }
  | .uFaucet caller amount =>
    match usdtFaucet s.usdt caller amount with
    | .error e => .error e
    | .ok u1 => .ok { s with usdt := u1 }
  | .create caller now agreementId client assetId assetType description originalValue documentHash =>
    createPledge s caller now agreementId client assetId assetType description originalValue documentHash
  | .pay caller agreementId => payClient s caller agreementId
  | .purchase caller now agreementId tokenAmount purchaseId =>
    purchaseTokens s caller now agreementId tokenAmount purchaseId
  | .repay caller agreementId amount => repayPledge s caller agreementId amount
  | .setSpread caller v => setSpreadPercentage s caller v
  | .withdraw caller dst amount => withdrawRevenue s caller dst amount
  | .pmGrant caller r a => pmGrantRole s caller r a
  | .pmRevoke caller r a => pmRevokeRole s caller r a
  | .pmDoPause caller => pmPause s caller
  | .pmDoUnpause caller => pmUnpause s caller

/-- Run a sequence of entrypoints, stopping at the first revert. -/
def execTrace (s : SysState) : List SysOp → Except Err SysState
  | [] => .ok s
  | op :: rest =>
    match sysStep s op with
    | .error e => .error e
    | .ok s' => execTrace s' rest

/-- The successful result of a call, with a fallback for the error case
(used only to name concrete witness states). -/
def okOr {σ : Type} (r : Except Err σ) (d : σ) : σ :=
  match r with
  | .ok x => x
  | .error _ => d

@[simp] theorem bal_mset_self (m : List (Address × Nat)) (k : Address) (v : Nat) :
    bal (mset m k v) k = v := by
  simp [bal]

theorem bal_mset_ne (m : List (Address × Nat)) (k k' : Address) (v : Nat)
    (h : k' ≠ k) : bal (mset m k v) k' = bal m k' := by
  simp [bal, mgetD_mset_ne m k k' v 0 h]

/-! ## Conservation of supply -/

/-- Total fungible supply: the sum of every balance entry, as an integer. -/
def sumBalances (s : TokenState) : Int := msum (fun n : Nat => (n : Int)) s.balances

/-- Net outstanding tokens of one asset record: the issued amount
(`pledgedValue / 1e18`, the exact amount minted for it) minus the tokens
redeemed against it so far. -/
def assetNet (a : AssetInfo) : Int :=
  ((a.pledgedValue / scale : Nat) : Int) - (a.tokensRedeemed : Int)

/-- Sum of `assetNet` over the whole asset registry. -/
def sumAssetNet (s : TokenState) : Int := msum assetNet s.assets

/-- Structural invariant carried through the reachability induction: maps
have distinct keys, asset keys stay below the id counter, and supply is
conserved. -/
def LedgerInv (s : TokenState) : Prop :=
  NodupKeys s.balances ∧ NodupKeys s.assets ∧
  (∀ p ∈ s.assets, p.1 < s.currentTokenId) ∧
  sumBalances s = sumAssetNet s

theorem not_mem_keys_of_lt {ν : Type} (m : List (Nat × ν)) (k : Nat)
    (hb : ∀ p ∈ m, p.1 < k) : k ∉ keys m := by
  intro hmem
  obtain ⟨p, hp, he⟩ := List.mem_map.mp hmem
  exact absurd (he ▸ hb p hp) (lt_irrefl k)

theorem assetNet_zero : assetNet zeroAsset = 0 := by
  simp [assetNet, zeroAsset]

theorem erc20Transfer_conserves (p : Bool) (m : List (Address × Nat))
    (src dst : Address) (amt : Nat) (b : List (Address × Nat)) (hnd : NodupKeys m)
    (h : erc20Transfer p m src dst amt = .ok b) :
    NodupKeys b ∧ msum (fun n : Nat => (n : Int)) b = msum (fun n : Nat => (n : Int)) m := by
  unfold erc20Transfer at h
  split_ifs at h with h1 h2 h3 h4
  simp only [Except.ok.injEq] at h
  subst h
  have hnd1 : NodupKeys (mset m src (bal m src - amt)) :=
    nodupKeys_mset src (bal m src - amt) hnd
  refine ⟨nodupKeys_mset _ _ hnd1, ?_⟩
  rw [msum_mset (fun n : Nat => (n : Int)) 0 (by simp) dst _ hnd1,
      msum_mset (fun n : Nat => (n : Int)) 0 (by simp) src _ hnd]
  simp only [bal] at h4 ⊢
  omega

theorem ledgerInv_init (admin : Address) : LedgerInv (initToken admin) := by
  refine ⟨?_, ?_, ?_, ?_⟩ <;> simp [initToken, NodupKeys, keys, sumBalances, sumAssetNet, msum]

theorem ledgerInv_step (s s' : TokenState) (op : TokenOp)
    (hI : LedgerInv s) (h : applyTokenOp s op = .ok s') : LedgerInv s' := by
  obtain ⟨hb, ha, hk, hsum⟩ := hI
  cases op with
  | pledge caller now aid aty de ov pl =>
    simp only [applyTokenOp] at h
    cases hp : pledgeAsset s caller now aid aty de ov pl with
    | error e => rw [hp] at h; cases h
    | ok p =>
      rw [hp] at h
      simp only [Except.ok.injEq] at h
      subst h
      unfold pledgeAsset at hp
      split_ifs at hp with h1 h2 h3 h4 h5 h6
      simp only [Except.ok.injEq] at hp
      subst hp
      refine ⟨nodupKeys_mset _ _ hb, nodupKeys_mset _ _ ha, ?_, ?_⟩
      · intro q hq
        simp only [mset] at hq
        rcases List.mem_cons.mp hq with rfl | hm
        · exact Nat.lt_succ_self _
        · exact Nat.lt_succ_of_lt (hk q (mem_of_mem_mdrop hm))
      · simp only [sumBalances, sumAssetNet] at hsum ⊢
        rw [msum_mset (fun n : Nat => (n : Int)) 0 (by simp) pl _ hb,
            msum_mset assetNet zeroAsset assetNet_zero s.currentTokenId _ ha,
            mgetD_of_not_mem zeroAsset (not_mem_keys_of_lt s.assets s.currentTokenId hk),
            assetNet_zero]
        simp only [assetNet, bal]
        set P := ov * s.discountRate / 100 / scale with hP
        omega
  | release caller aid holder amt =>
    simp only [applyTokenOp, releaseAsset] at h
    split_ifs at h with g1 g2 g3 g4 g5 g6 g7 g8
    · -- full release
      simp only [Except.ok.injEq] at h
      subst h
      have hane : mgetD s.assets (mgetD s.assetIdToTokenId aid 0) zeroAsset ≠ zeroAsset := by
        intro he
        rw [he] at g4
        simp [zeroAsset] at g4
      refine ⟨nodupKeys_mset _ _ hb, nodupKeys_mset _ _ ha, ?_, ?_⟩
      · intro q hq
        simp only [mset] at hq
        rcases List.mem_cons.mp hq with rfl | hm
        · have hlt := hk _ (mgetD_ne_default_mem hane)
          simpa using hlt
        · exact hk q (mem_of_mem_mdrop hm)
      · simp only [sumBalances, sumAssetNet] at hsum ⊢
        rw [msum_mset (fun n : Nat => (n : Int)) 0 (by simp) holder _ hb,
            msum_mset assetNet zeroAsset assetNet_zero _ _ ha]
        simp only [assetNet, bal] at g5 ⊢
        set A := mgetD s.assets (mgetD s.assetIdToTokenId aid 0) zeroAsset with hA
        set P := A.pledgedValue / scale with hP
        omega
    · -- partial release
      simp only [Except.ok.injEq] at h
      subst h
      have hane : mgetD s.assets (mgetD s.assetIdToTokenId aid 0) zeroAsset ≠ zeroAsset := by
        intro he
        rw [he] at g4
        simp [zeroAsset] at g4
      refine ⟨nodupKeys_mset _ _ hb, nodupKeys_mset _ _ ha, ?_, ?_⟩
      · intro q hq
        simp only [mset] at hq
        rcases List.mem_cons.mp hq with rfl | hm
        · have hlt := hk _ (mgetD_ne_default_mem hane)
          simpa using hlt
        · exact hk q (mem_of_mem_mdrop hm)
      · simp only [sumBalances, sumAssetNet] at hsum ⊢
        rw [msum_mset (fun n : Nat => (n : Int)) 0 (by simp) holder _ hb,
            msum_mset assetNet zeroAsset assetNet_zero _ _ ha]
        simp only [assetNet, bal] at g5 ⊢
        set A := mgetD s.assets (mgetD s.assetIdToTokenId aid 0) zeroAsset with hA
        set P := A.pledgedValue / scale with hP
        omega
  | transfer caller dst amt =>
    simp only [applyTokenOp, tokenTransfer] at h
    cases ht : erc20Transfer s.paused s.balances caller dst amt with
    | error e => rw [ht] at h; cases h
    | ok b =>
      rw [ht] at h
      simp only [Except.ok.injEq] at h
      subst h
      obtain ⟨hnd, hsame⟩ := erc20Transfer_conserves _ _ _ _ _ _ hb ht
      refine ⟨hnd, ha, hk, ?_⟩
      simp only [sumBalances, sumAssetNet] at hsum ⊢
      rw [hsame]
      exact hsum
  | approve caller spender amt =>
    simp only [applyTokenOp, tokenApprove] at h
    cases ha2 : erc20Approve s.allowances caller spender amt with
    | error e => rw [ha2] at h; cases h
    | ok al =>
      rw [ha2] at h
      simp only [Except.ok.injEq] at h
      subst h
      exact ⟨hb, ha, hk, hsum⟩
  | transferFrom caller src dst amt =>
    simp only [applyTokenOp, tokenTransferFrom] at h
    cases hsa : spendAllowance s.allowances src caller amt with
    | error e => rw [hsa] at h; cases h
    | ok al =>
      rw [hsa] at h
      cases ht : erc20Transfer s.paused s.balances src dst amt with
      | error e => rw [ht] at h; cases h
      | ok b =>
        rw [ht] at h
        simp only [Except.ok.injEq] at h
        subst h
        obtain ⟨hnd, hsame⟩ := erc20Transfer_conserves _ _ _ _ _ _ hb ht
        refine ⟨hnd, ha, hk, ?_⟩
        simp only [sumBalances, sumAssetNet] at hsum ⊢
        rw [hsame]
        exact hsum
  | setRate caller rate =>
    simp only [applyTokenOp, setDiscountRate] at h
    split_ifs at h
    simp only [Except.ok.injEq] at h
    subst h
    exact ⟨hb, ha, hk, hsum⟩
  | pause caller =>
    simp only [applyTokenOp, tokenPause] at h
    split_ifs at h
    simp only [Except.ok.injEq] at h
    subst h
    exact ⟨hb, ha, hk, hsum⟩
  | unpause caller =>
    simp only [applyTokenOp, tokenUnpause] at h
    split_ifs at h
    simp only [Except.ok.injEq] at h
    subst h
    exact ⟨hb, ha, hk, hsum⟩
  | grant caller r a =>
    simp only [applyTokenOp, tokenGrantRole] at h
    split_ifs at h
    simp only [Except.ok.injEq] at h
    subst h
    exact ⟨hb, ha, hk, hsum⟩
  | revoke caller r a =>
    simp only [applyTokenOp, tokenRevokeRole] at h
    split_ifs at h
    simp only [Except.ok.injEq] at h
    subst h
    exact ⟨hb, ha, hk, hsum⟩

theorem ledgerInv_reachable (admin : Address) (s : TokenState)
    (h : TokenReachable admin s) : LedgerInv s := by
  induction h with
  | base => exact ledgerInv_init admin
  | step t t' op hr hs ih => exact ledgerInv_step t t' op ih hs

/-! ## Claims -/

/-- C1: every successful `pledgeAsset` call stores an asset record with
`pledgedValue = floor(originalValue * discountRate / 100)` using the discount
rate current at the call, mints exactly `pledgedValue / 1e18` balance units to
the beneficiary, and reports that number as `tokensIssued`; such calls only
happen for `originalValue > 0`. -/
theorem pledgeAsset_value_and_mint
    (s : TokenState) (caller : Address) (now : Nat)
    (assetId assetType description : String) (originalValue : Nat)
    (pledger : Address) (s' : TokenState) (n : Nat)
    (h : pledgeAsset s caller now assetId assetType description originalValue pledger
          = .ok (s', n)) :
    0 < originalValue ∧
    (mgetD s'.assets s.currentTokenId zeroAsset).pledgedValue
      = originalValue * s.discountRate / 100 ∧
    n = originalValue * s.discountRate / 100 / scale ∧
    bal s'.balances pledger = bal s.balances pledger + n := by
  unfold pledgeAsset at h
  split_ifs at h with h1 h2 h3 h4 h5 h6
  simp only [Except.ok.injEq, Prod.mk.injEq] at h
  obtain ⟨hs, hn⟩ := h
  subst hs
  subst hn
  refine ⟨Nat.pos_of_ne_zero h6, ?_, rfl, ?_⟩
  · simp
  · simp

/-- Concrete successful `pledgeAsset` run used by the C1 witness. -/
def c1Run : Except Err (TokenState × Nat) :=
  pledgeAsset (initToken 2) 2 5 "A1" "real_estate" "d" (100000 * 10 ^ 18) 2

/-- The state and token count produced by `c1Run`. -/
def c1Res : TokenState × Nat := okOr c1Run (initToken 2, 0)

/-- Witness for C1 at a concrete pledge of 100000e18 at the default 70%
discount. -/
theorem pledgeAsset_value_and_mint_witness :
    0 < 100000 * 10 ^ 18 ∧
    (mgetD c1Res.1.assets (initToken 2).currentTokenId zeroAsset).pledgedValue
      = 100000 * 10 ^ 18 * (initToken 2).discountRate / 100 ∧
    c1Res.2 = 100000 * 10 ^ 18 * (initToken 2).discountRate / 100 / scale ∧
    bal c1Res.1.balances 2 = bal (initToken 2).balances 2 + c1Res.2 :=
  pledgeAsset_value_and_mint (initToken 2) 2 5 "A1" "real_estate" "d"
    (100000 * 10 ^ 18) 2 c1Res.1 c1Res.2 (by rfl)

/-- C3: in every ledger state reachable by any sequence of AssetLedger
entrypoint calls from deployment, the token total supply — the sum of all
fungible balance entries — equals the sum over all asset records of the
tokens issued for that asset (`pledgedValue / 1e18`, exactly what its
registration minted) minus the tokens redeemed against it so far (the ghost
`tokensRedeemed` accumulator of burns). -/
theorem conservation_of_supply (admin : Address) (s : TokenState)
    (h : TokenReachable admin s) : sumBalances s = sumAssetNet s :=
  (ledgerInv_reachable admin s h).2.2.2

/-- Witness for C3 at the reachable state after one concrete pledge. -/
theorem conservation_of_supply_witness : sumBalances c1Res.1 = sumAssetNet c1Res.1 :=
  conservation_of_supply 2 c1Res.1
    (TokenReachable.step (initToken 2) c1Res.1
      (.pledge 2 5 "A1" "real_estate" "d" (100000 * 10 ^ 18) 2)
      TokenReachable.base (by rfl))

/-- C2: every successful `createPledge` stores
`clientPayment = floor(discountedValue * (100 - spreadPercentage) / 100)`
computed from the spread in effect at the call (with
`discountedValue = floor(originalValue * discountRate / 100)` from the
token's current rate), and a successful `setSpreadPercentage` leaves every
stored agreement untouched. -/
theorem createPledge_clientPayment_and_spread_immutable :
    (∀ (s : SysState) (caller : Address) (now : Nat) (agreementId : String)
       (client : Address) (assetId assetType description : String)
       (originalValue : Nat) (documentHash : String) (s' : SysState),
      createPledge s caller now agreementId client assetId assetType description
          originalValue documentHash = .ok s' →
      (mgetD s'.pm.pledgeAgreements agreementId zeroAgreement).clientPayment
        = (originalValue * s.token.discountRate / 100) * (100 - s.pm.spreadPercentage) / 100) ∧
    (∀ (s : SysState) (caller : Address) (v : Nat) (s' : SysState),
      setSpreadPercentage s caller v = .ok s' →
      s'.pm.pledgeAgreements = s.pm.pledgeAgreements) := by
  constructor
  · intro s caller now agreementId client assetId assetType description
      originalValue documentHash s' h
    unfold createPledge at h
    split_ifs at h with h1 h2 h3 h4 h5 h6
    cases hp : pledgeAsset s.token pmAddr now assetId assetType description originalValue pmAddr with
    | error e => rw [hp] at h; cases h
    | ok p =>
      rw [hp] at h
      simp only [Except.ok.injEq] at h
      subst h
      simp
  · intro s caller v s' h
    unfold setSpreadPercentage at h
    split_ifs at h with h1 h2
    simp only [Except.ok.injEq] at h
    subst h
    rfl

/-- Concrete successful `createPledge` run used by the C2 witness: it needs
the manager to hold `PLEDGE_MANAGER_ROLE` on the token first. -/
def c2Base : SysState :=
  okOr (sysStep (initSys 2 2) (.tok (.grant 2 .pledgeManager pmAddr))) (initSys 2 2)

/-- The state after a concrete `createPledge` on `c2Base`. -/
def c2S : SysState :=
  okOr (createPledge c2Base 2 5 "AG1" 4 "AS1" "real_estate" "d" (100000 * 10 ^ 18) "Qm") c2Base

/-- The state after a concrete `setSpreadPercentage` on `c2S`. -/
def c2S2 : SysState := okOr (setSpreadPercentage c2S 2 30) c2S

/-- C4: a successful `pledgeAsset` followed by a successful `releaseAsset`
redeeming at least the issued amount deactivates the asset and brings the
pledged-value accumulator back to its pre-registration value (i.e. subtracts
exactly the asset's `pledgedValue`, which the registration had added); any
further `releaseAsset` on that asset id by a role-holding caller reverts with
`assetInactive` and leaves the state unchanged. -/
theorem register_full_release_roundtrip
    (s : TokenState) (caller1 caller2 : Address) (now : Nat)
    (assetId assetType description : String) (originalValue : Nat)
    (pledger holder : Address) (amt n : Nat) (s1 s2 : TokenState)
    (hp : pledgeAsset s caller1 now assetId assetType description originalValue pledger
          = .ok (s1, n))
    (hr : releaseAsset s1 caller2 assetId holder amt = .ok s2)
    (hge : n ≤ amt) :
    (mgetD s2.assets s.currentTokenId zeroAsset).isActive = false ∧
    s1.totalPledgedValue
      = s.totalPledgedValue + originalValue * s.discountRate / 100 ∧
    s2.totalPledgedValue = s.totalPledgedValue ∧
    (∀ (caller3 holder' : Address) (amt' : Nat),
      hasRole s2.roles .pledgeManager caller3 →
      tryOp s2 (releaseAsset s2 caller3 assetId holder' amt') = (s2, some .assetInactive)) := by
  unfold pledgeAsset at hp
  split_ifs at hp with h1 h2 h3 h4 h5 h6
  simp only [Except.ok.injEq, Prod.mk.injEq] at hp
  obtain ⟨hs1, hn⟩ := hp
  subst hs1
  subst hn
  simp only [releaseAsset, mgetD_mset_self] at hr
  split_ifs at hr with g1 g2 g3 g4 g5 g6
  simp only [Except.ok.injEq] at hr
  subst hr
  refine ⟨by simp, by simp, ?_, ?_⟩
  · simp [Nat.add_sub_cancel]
  · intro caller3 holder' amt' hrole
    simp [releaseAsset, tryOp, hrole, h2, g2, mgetD_mset_self]

/-- Concrete run used by the C4 witness: pledge then fully release. -/
def c4S1N : TokenState × Nat := okOr c1Run (initToken 2, 0)

/-- The state after the full release in the C4 witness run. -/
def c4S2 : TokenState := okOr (releaseAsset c4S1N.1 2 "A1" 2 70000) c4S1N.1

/-- Witness for C4 at the concrete C1 pledge followed by a full release. -/
theorem register_full_release_roundtrip_witness :
    (mgetD c4S2.assets (initToken 2).currentTokenId zeroAsset).isActive = false ∧
    c4S1N.1.totalPledgedValue
      = (initToken 2).totalPledgedValue + 100000 * 10 ^ 18 * (initToken 2).discountRate / 100 ∧
    c4S2.totalPledgedValue = (initToken 2).totalPledgedValue ∧
    (∀ (caller3 holder' : Address) (amt' : Nat),
      hasRole c4S2.roles .pledgeManager caller3 →
      tryOp c4S2 (releaseAsset c4S2 caller3 "A1" holder' amt') = (c4S2, some .assetInactive)) :=
  register_full_release_roundtrip (initToken 2) 2 2 5 "A1" "real_estate" "d"
    (100000 * 10 ^ 18) 2 2 70000 c4S1N.2 c4S1N.1 c4S2 (by rfl) (by rfl) (by decide)

theorem createPledge_clientPayment_and_spread_immutable_witness :
    (mgetD c2S.pm.pledgeAgreements "AG1" zeroAgreement).clientPayment
      = (100000 * 10 ^ 18 * c2Base.token.discountRate / 100)
          * (100 - c2Base.pm.spreadPercentage) / 100 ∧
    c2S2.pm.pledgeAgreements = c2S.pm.pledgeAgreements :=
  ⟨createPledge_clientPayment_and_spread_immutable.1 c2Base 2 5 "AG1" 4 "AS1"
      "real_estate" "d" (100000 * 10 ^ 18) "Qm" c2S (by rfl),
   createPledge_clientPayment_and_spread_immutable.2 c2S 2 30 c2S2 (by rfl)⟩

/-- C6: after a successful `createPledge` (at a nonzero logical time, which
every real block has), a second `createPledge` with the same `agreementId` by
an operator, with otherwise valid arguments, reverts with the duplicate
identifier error and leaves the state exactly as after the first call. -/
theorem createPledge_duplicate_agreement_rejected
    (s : SysState) (caller1 caller2 : Address) (now1 now2 : Nat)
    (agreementId : String) (client1 client2 : Address)
    (assetId1 assetType1 description1 assetId2 assetType2 description2 : String)
    (ov1 ov2 : Nat) (doc1 doc2 : String) (s1 : SysState)
    (hnow : now1 ≠ 0)
    (h : createPledge s caller1 now1 agreementId client1 assetId1 assetType1
          description1 ov1 doc1 = .ok s1)
    (hrole : hasRole s1.pm.roles .operator caller2)
    (hclient : client2 ≠ 0) (hov : ov2 ≠ 0) :
    tryOp s1 (createPledge s1 caller2 now2 agreementId client2 assetId2 assetType2
        description2 ov2 doc2)
      = (s1, some .duplicateAgreement) := by
  unfold createPledge at h
  split_ifs at h with h1 h2 h3 h4 h5 h6
  cases hp : pledgeAsset s.token pmAddr now1 assetId1 assetType1 description1 ov1 pmAddr with
  | error e => rw [hp] at h; cases h
  | ok p =>
    rw [hp] at h
    simp only [Except.ok.injEq] at h
    subst h
    simp [createPledge, tryOp, hrole, h2, h3, hclient, hov, hnow, mgetD_mset_self]

/-- The state after a concrete first `createPledge`, used by the C6
witness. -/
def c6S1 : SysState :=
  okOr (createPledge c2Base 2 5 "AG6" 4 "AS6" "real_estate" "d" (100000 * 10 ^ 18) "Qm") c2Base

/-- Witness for C6: the concrete duplicate `createPledge` reverts with the
duplicate-identifier error and changes nothing. -/
theorem createPledge_duplicate_agreement_rejected_witness :
    tryOp c6S1 (createPledge c6S1 2 9 "AG6" 7 "AS7" "stocks" "e" (5 * 10 ^ 18) "Qn")
      = (c6S1, some .duplicateAgreement) :=
  createPledge_duplicate_agreement_rejected c2Base 2 2 5 9 "AG6" 4 7 "AS6"
    "real_estate" "d" "AS7" "stocks" "e" (100000 * 10 ^ 18) (5 * 10 ^ 18) "Qm" "Qn" c6S1
    (by decide) (by rfl) (by decide) (by decide) (by decide)

/-- C7: every role-gated state-mutating entrypoint, called by an identity
lacking the required role, reverts with `unauthorized` and leaves the entire
state unchanged: `pledgeAsset` and `releaseAsset` (pledge-manager role),
`createPledge` (operator), `payClient`, `repayPledge`, `withdrawRevenue`
(finance), `setDiscountRate`, `setSpreadPercentage`, role grants and the
manager's pause/unpause (admin), and the token's pause/unpause (pauser). -/
theorem unauthorized_mutations_rejected :
    (∀ (s : TokenState) (caller : Address) (now : Nat) (aid aty de : String)
       (ov : Nat) (pl : Address), ¬ hasRole s.roles .pledgeManager caller →
      pledgeAsset s caller now aid aty de ov pl = .error .unauthorized) ∧
    (∀ (s : TokenState) (caller : Address) (aid : String) (h : Address) (a : Nat),
      ¬ hasRole s.roles .pledgeManager caller →
      tryOp s (releaseAsset s caller aid h a) = (s, some .unauthorized)) ∧
    (∀ (s : SysState) (caller : Address) (now : Nat) (agid : String) (cl : Address)
       (aid aty de : String) (ov : Nat) (doc : String),
      ¬ hasRole s.pm.roles .operator caller →
      tryOp s (createPledge s caller now agid cl aid aty de ov doc)
        = (s, some .unauthorized)) ∧
    (∀ (s : SysState) (caller : Address) (agid : String),
      ¬ hasRole s.pm.roles .finance caller →
      tryOp s (payClient s caller agid) = (s, some .unauthorized)) ∧
    (∀ (s : SysState) (caller : Address) (agid : String) (amt : Nat),
      ¬ hasRole s.pm.roles .finance caller →
      tryOp s (repayPledge s caller agid amt) = (s, some .unauthorized)) ∧
    (∀ (s : SysState) (caller : Address) (v : Nat),
      ¬ hasRole s.pm.roles .admin caller →
      tryOp s (setSpreadPercentage s caller v) = (s, some .unauthorized)) ∧
    (∀ (s : TokenState) (caller : Address) (v : Nat),
      ¬ hasRole s.roles .admin caller →
      tryOp s (setDiscountRate s caller v) = (s, some .unauthorized)) ∧
    (∀ (s : SysState) (caller dst : Address) (amt : Nat),
      ¬ hasRole s.pm.roles .finance caller →
      tryOp s (withdrawRevenue s caller dst amt) = (s, some .unauthorized)) ∧
    (∀ (s : TokenState) (caller : Address) (r : Role) (a : Address),
      ¬ hasRole s.roles .admin caller →
      tryOp s (tokenGrantRole s caller r a) = (s, some .unauthorized)) ∧
    (∀ (s : SysState) (caller : Address) (r : Role) (a : Address),
      ¬ hasRole s.pm.roles .admin caller →
      tryOp s (pmGrantRole s caller r a) = (s, some .unauthorized)) ∧
    (∀ (s : TokenState) (caller : Address), ¬ hasRole s.roles .pauser caller →
      tryOp s (tokenPause s caller) = (s, some .unauthorized)) ∧
    (∀ (s : TokenState) (caller : Address), ¬ hasRole s.roles .pauser caller →
      tryOp s (tokenUnpause s caller) = (s, some .unauthorized)) ∧
    (∀ (s : SysState) (caller : Address), ¬ hasRole s.pm.roles .admin caller →
      tryOp s (pmPause s caller) = (s, some .unauthorized)) ∧
    (∀ (s : SysState) (caller : Address), ¬ hasRole s.pm.roles .admin caller →
      tryOp s (pmUnpause s caller) = (s, some .unauthorized)) := by
  refine ⟨?_, ?_, ?_, ?_, ?_, ?_, ?_, ?_, ?_, ?_, ?_, ?_, ?_, ?_⟩
  · intro s caller now aid aty de ov pl h
    simp [pledgeAsset, h]
  · intro s caller aid hd a h
    simp [releaseAsset, tryOp, h]
  · intro s caller now agid cl aid aty de ov doc h
    simp [createPledge, tryOp, h]
  · intro s caller agid h
    simp [payClient, tryOp, h]
  · intro s caller agid amt h
    simp [repayPledge, tryOp, h]
  · intro s caller v h
    simp [setSpreadPercentage, tryOp, h]
  · intro s caller v h
    simp [setDiscountRate, tryOp, h]
  · intro s caller dst amt h
    simp [withdrawRevenue, tryOp, h]
  · intro s caller r a h
    simp [tokenGrantRole, tryOp, h]
  · intro s caller r a h
    simp [pmGrantRole, tryOp, h]
  · intro s caller h
    simp [tokenPause, tryOp, h]
  · intro s caller h
    simp [tokenUnpause, tryOp, h]
  · intro s caller h
    simp [pmPause, tryOp, h]
  · intro s caller h
    simp [pmUnpause, tryOp, h]

/-- Witness for C7: address 9 holds no role in the fresh deployment, and each
gated entrypoint rejects it with `unauthorized`, leaving the state intact. -/
theorem unauthorized_mutations_rejected_witness :
    pledgeAsset (initToken 2) 9 5 "A" "t" "d" 7 9 = .error .unauthorized ∧
    tryOp (initToken 2) (releaseAsset (initToken 2) 9 "A" 9 7)
      = (initToken 2, some .unauthorized) ∧
    tryOp (initSys 2 2) (createPledge (initSys 2 2) 9 5 "G" 4 "A" "t" "d" 7 "h")
      = (initSys 2 2, some .unauthorized) ∧
    tryOp (initSys 2 2) (payClient (initSys 2 2) 9 "G") = (initSys 2 2, some .unauthorized) ∧
    tryOp (initSys 2 2) (repayPledge (initSys 2 2) 9 "G" 7)
      = (initSys 2 2, some .unauthorized) ∧
    tryOp (initSys 2 2) (setSpreadPercentage (initSys 2 2) 9 10)
      = (initSys 2 2, some .unauthorized) ∧
    tryOp (initToken 2) (setDiscountRate (initToken 2) 9 80)
      = (initToken 2, some .unauthorized) ∧
    tryOp (initSys 2 2) (withdrawRevenue (initSys 2 2) 9 4 0)
      = (initSys 2 2, some .unauthorized) ∧
    tryOp (initToken 2) (tokenGrantRole (initToken 2) 9 .minter 9)
      = (initToken 2, some .unauthorized) ∧
    tryOp (initSys 2 2) (pmGrantRole (initSys 2 2) 9 .finance 9)
      = (initSys 2 2, some .unauthorized) ∧
    tryOp (initToken 2) (tokenPause (initToken 2) 9) = (initToken 2, some .unauthorized) ∧
    tryOp (initToken 2) (tokenUnpause (initToken 2) 9) = (initToken 2, some .unauthorized) ∧
    tryOp (initSys 2 2) (pmPause (initSys 2 2) 9) = (initSys 2 2, some .unauthorized) ∧
    tryOp (initSys 2 2) (pmUnpause (initSys 2 2) 9) = (initSys 2 2, some .unauthorized) :=
  ⟨unauthorized_mutations_rejected.1 (initToken 2) 9 5 "A" "t" "d" 7 9 (by decide),
   unauthorized_mutations_rejected.2.1 (initToken 2) 9 "A" 9 7 (by decide),
   unauthorized_mutations_rejected.2.2.1 (initSys 2 2) 9 5 "G" 4 "A" "t" "d" 7 "h" (by decide),
   unauthorized_mutations_rejected.2.2.2.1 (initSys 2 2) 9 "G" (by decide),
   unauthorized_mutations_rejected.2.2.2.2.1 (initSys 2 2) 9 "G" 7 (by decide),
   unauthorized_mutations_rejected.2.2.2.2.2.1 (initSys 2 2) 9 10 (by decide),
   unauthorized_mutations_rejected.2.2.2.2.2.2.1 (initToken 2) 9 80 (by decide),
   unauthorized_mutations_rejected.2.2.2.2.2.2.2.1 (initSys 2 2) 9 4 0 (by decide),
   unauthorized_mutations_rejected.2.2.2.2.2.2.2.2.1 (initToken 2) 9 .minter 9 (by decide),
   unauthorized_mutations_rejected.2.2.2.2.2.2.2.2.2.1 (initSys 2 2) 9 .finance 9 (by decide),
   unauthorized_mutations_rejected.2.2.2.2.2.2.2.2.2.2.1 (initToken 2) 9 (by decide),
   unauthorized_mutations_rejected.2.2.2.2.2.2.2.2.2.2.2.1 (initToken 2) 9 (by decide),
   unauthorized_mutations_rejected.2.2.2.2.2.2.2.2.2.2.2.2.1 (initSys 2 2) 9 (by decide),
   unauthorized_mutations_rejected.2.2.2.2.2.2.2.2.2.2.2.2.2 (initSys 2 2) 9 (by decide)⟩

/-- C8: `payClient` on an existing `ACTIVE` agreement, by a finance caller,
when the manager's stable-asset balance is below `clientPayment`, reverts
with `insufficientLiquidity`: no transfer happens and the
total-client-payments accumulator is unchanged (operations revert
all-or-nothing, which the `Except`/`tryOp` execution model makes explicit). -/
theorem payClient_insufficient_liquidity_atomic
    (s : SysState) (caller : Address) (agreementId : String)
    (hrole : hasRole s.pm.roles .finance caller)
    (hex : (mgetD s.pm.pledgeAgreements agreementId zeroAgreement).timestamp ≠ 0)
    (hact : (mgetD s.pm.pledgeAgreements agreementId zeroAgreement).status = .ACTIVE)
    (hbal : bal s.usdt.balances pmAddr
            < (mgetD s.pm.pledgeAgreements agreementId zeroAgreement).clientPayment) :
    tryOp s (payClient s caller agreementId) = (s, some .insufficientLiquidity) ∧
    (tryOp s (payClient s caller agreementId)).1.pm.totalClientPayments
      = s.pm.totalClientPayments ∧
    (tryOp s (payClient s caller agreementId)).1.usdt.balances = s.usdt.balances := by
  have h : tryOp s (payClient s caller agreementId) = (s, some .insufficientLiquidity) := by
    simp [payClient, tryOp, hrole, hex, hact, hbal]
  exact ⟨h, by rw [h], by rw [h]⟩

/-- Witness for C8: in the concrete post-`createPledge` state the manager
holds no USDT at all, and paying the client reverts with
`insufficientLiquidity`, all state intact. -/
theorem payClient_insufficient_liquidity_atomic_witness :
    tryOp c2S (payClient c2S 2 "AG1") = (c2S, some .insufficientLiquidity) ∧
    (tryOp c2S (payClient c2S 2 "AG1")).1.pm.totalClientPayments
      = c2S.pm.totalClientPayments ∧
    (tryOp c2S (payClient c2S 2 "AG1")).1.usdt.balances = c2S.usdt.balances :=
  payClient_insufficient_liquidity_atomic c2S 2 "AG1" (by decide) (by decide)
    (by decide) (by decide)

/-- Balances after the manager sends `cp` USDT to `cl` (the success case of
`erc20Transfer` with source `pmAddr`). -/
def payBal (m : List (Address × Nat)) (cl : Address) (cp : Nat) : List (Address × Nat) :=
  mset (mset m pmAddr (bal m pmAddr - cp)) cl
    (bal (mset m pmAddr (bal m pmAddr - cp)) cl + cp)

/-- Shape of a successful `payClient`: the USDT moves from the manager to the
client and only the total-client-payments accumulator changes besides. -/
theorem payClient_ok_state (s : SysState) (caller : Address) (agreementId : String)
    (hrole : hasRole s.pm.roles .finance caller)
    (hex : (mgetD s.pm.pledgeAgreements agreementId zeroAgreement).timestamp ≠ 0)
    (hact : (mgetD s.pm.pledgeAgreements agreementId zeroAgreement).status = .ACTIVE)
    (hclient : (mgetD s.pm.pledgeAgreements agreementId zeroAgreement).client ≠ 0)
    (hle : (mgetD s.pm.pledgeAgreements agreementId zeroAgreement).clientPayment
           ≤ bal s.usdt.balances pmAddr) :
    payClient s caller agreementId
      = .ok { s with
              usdt := { s.usdt with
                        balances := payBal s.usdt.balances
                          (mgetD s.pm.pledgeAgreements agreementId zeroAgreement).client
                          (mgetD s.pm.pledgeAgreements agreementId zeroAgreement).clientPayment },
              pm := { s.pm with
                      totalClientPayments := s.pm.totalClientPayments
                        + (mgetD s.pm.pledgeAgreements agreementId zeroAgreement).clientPayment } } := by
  have hpm0 : pmAddr ≠ 0 := by decide
  simp [payClient, erc20Transfer, payBal, hrole, hex, hact, hclient, hpm0, Nat.not_lt.mpr hle]

/-- C10: `payClient` never modifies the agreement record and stores no
paid flag, so for an existing `ACTIVE` agreement with a valid client, two
consecutive `payClient` calls by finance callers both succeed whenever the
manager's balance covers two payments: each transfers `clientPayment` to the
client and each adds `clientPayment` to the total-client-payments
accumulator. -/
theorem payClient_repeatable
    (s : SysState) (caller1 caller2 : Address) (agreementId : String)
    (hrole1 : hasRole s.pm.roles .finance caller1)
    (hrole2 : hasRole s.pm.roles .finance caller2)
    (hex : (mgetD s.pm.pledgeAgreements agreementId zeroAgreement).timestamp ≠ 0)
    (hact : (mgetD s.pm.pledgeAgreements agreementId zeroAgreement).status = .ACTIVE)
    (hclient : (mgetD s.pm.pledgeAgreements agreementId zeroAgreement).client ≠ 0)
    (hbal : 2 * (mgetD s.pm.pledgeAgreements agreementId zeroAgreement).clientPayment
            ≤ bal s.usdt.balances pmAddr) :
    ∃ s1 s2 : SysState,
      payClient s caller1 agreementId = .ok s1 ∧
      payClient s1 caller2 agreementId = .ok s2 ∧
      s1.pm.pledgeAgreements = s.pm.pledgeAgreements ∧
      s2.pm.pledgeAgreements = s.pm.pledgeAgreements ∧
      s1.pm.totalClientPayments = s.pm.totalClientPayments
        + (mgetD s.pm.pledgeAgreements agreementId zeroAgreement).clientPayment ∧
      s2.pm.totalClientPayments = s.pm.totalClientPayments
        + 2 * (mgetD s.pm.pledgeAgreements agreementId zeroAgreement).clientPayment ∧
      ((mgetD s.pm.pledgeAgreements agreementId zeroAgreement).client ≠ pmAddr →
        bal s2.usdt.balances (mgetD s.pm.pledgeAgreements agreementId zeroAgreement).client
          = bal s.usdt.balances (mgetD s.pm.pledgeAgreements agreementId zeroAgreement).client
            + 2 * (mgetD s.pm.pledgeAgreements agreementId zeroAgreement).clientPayment) := by
  have hpm0 : pmAddr ≠ 0 := by decide
  have hple : (mgetD s.pm.pledgeAgreements agreementId zeroAgreement).clientPayment
      ≤ bal s.usdt.balances pmAddr := le_trans (by omega) hbal
  have h1 := payClient_ok_state s caller1 agreementId hrole1 hex hact hclient hple
  set p := mgetD s.pm.pledgeAgreements agreementId zeroAgreement with hp
  set m := s.usdt.balances with hm
  set b1 := payBal m p.client p.clientPayment with hb1
  have hbal1 : p.clientPayment ≤ bal b1 pmAddr := by
    by_cases hcl : p.client = pmAddr
    · rw [hb1, payBal, hcl, bal_mset_self, bal_mset_self]
      omega
    · rw [hb1, payBal, bal_mset_ne _ _ _ _ (Ne.symm hcl), bal_mset_self]
      omega
  set s1 : SysState :=
    { s with
      usdt := { s.usdt with balances := b1 },
      pm := { s.pm with totalClientPayments := s.pm.totalClientPayments + p.clientPayment } }
    with hs1
  have hlook1 : mgetD s1.pm.pledgeAgreements agreementId zeroAgreement = p := by
    rw [hs1]
  have h2 := payClient_ok_state s1 caller2 agreementId (by exact hrole2)
    (by rw [hlook1]; exact hex) (by rw [hlook1]; exact hact)
    (by rw [hlook1]; exact hclient) (by rw [hlook1]; exact hbal1)
  rw [hlook1] at h2
  refine ⟨_, _, h1, h2, rfl, rfl, rfl, by simp [hs1]; omega, ?_⟩
  intro hcl
  have hcl1 : p.client ≠ pmAddr := hcl
  have e1 : bal b1 p.client = bal m p.client + p.clientPayment := by
    rw [hb1, payBal, bal_mset_self, bal_mset_ne _ _ _ _ hcl1]
  have e2 : bal (payBal b1 p.client p.clientPayment) p.client
      = bal b1 p.client + p.clientPayment := by
    rw [payBal, bal_mset_self, bal_mset_ne _ _ _ _ hcl1]
  simp only [hs1]
  rw [e2, e1]
  omega

/-- Setup for the duplicate-purchase run: grant the manager its token role,
fund investor 3 with USDT, approve the manager, create a pledge, and buy 1000
tokens under purchase id `P1`. -/
def c5Prefix : List SysOp :=
  [ .tok (.grant 2 .pledgeManager pmAddr)
  , .uFaucet 3 (2000 * usdtScale)
  , .uApprove 3 pmAddr (2000 * usdtScale)
  , .create 2 5 "AG1" 4 "AS1" "real_estate" "d" (100000 * 10 ^ 18) "Qm"
  , .purchase 3 6 "AG1" 1000 "P1" ]

/-- The reachable state just before the duplicate purchase. -/
def c5Pre : SysState := okOr (execTrace (initSys 2 2) c5Prefix) (initSys 2 2)

/-- The state after repeating purchase id `P1`. -/
def c5Post : SysState := okOr (purchaseTokens c5Pre 3 7 "AG1" 1000 "P1") c5Pre

/-- C5 counterexample: from the fresh deployment, a `purchaseTokens` call
reusing the already-recorded purchase id `P1` is NOT rejected — the whole
trace succeeds and the reachable final state stores two `InvestorPurchase`
records carrying the same `purchaseId`. -/
theorem purchase_duplicate_id_accepted :
    (execTrace (initSys 2 2) c5Prefix).map
        (fun s => (mgetD s.pm.assetInvestors "AG1" []).map InvestorPurchase.purchaseId)
      = Except.ok ["P1"] ∧
    purchaseTokens c5Pre 3 7 "AG1" 1000 "P1" = .ok c5Post ∧
    (mgetD c5Post.pm.assetInvestors "AG1" []).map InvestorPurchase.purchaseId
      = ["P1", "P1"] := by
  refine ⟨by rfl, by rfl, by rfl⟩

/-- C5 (amended): `purchaseTokens` never inspects `purchaseId`: every
successful call appends its `InvestorPurchase` record to the agreement's
list unconditionally, whether or not the same `purchaseId` was recorded
before. -/
theorem purchaseTokens_appends_unconditionally
    (s : SysState) (caller : Address) (now : Nat) (agreementId : String)
    (tokenAmount : Nat) (purchaseId : String) (s' : SysState)
    (h : purchaseTokens s caller now agreementId tokenAmount purchaseId = .ok s') :
    mgetD s'.pm.assetInvestors agreementId []
      = mgetD s.pm.assetInvestors agreementId []
        ++ [{ investor := caller, tokenAmount := tokenAmount,
              usdtPaid := tokenAmount * usdtScale, timestamp := now,
              purchaseId := purchaseId }] := by
  simp only [purchaseTokens] at h
  split_ifs at h with g1 g2 g3 g4 g5
  cases hu : usdtTransferFrom s.usdt pmAddr caller pmAddr (tokenAmount * usdtScale) with
  | error e => rw [hu] at h; cases h
  | ok u1 =>
    rw [hu] at h
    cases ht : tokenTransfer s.token pmAddr caller tokenAmount with
    | error e => rw [ht] at h; cases h
    | ok t1 =>
      rw [ht] at h
      simp only [Except.ok.injEq] at h
      subst h
      simp

/-- Witness for the amended C5 at the concrete duplicate purchase. -/
theorem purchaseTokens_appends_unconditionally_witness :
    mgetD c5Post.pm.assetInvestors "AG1" []
      = mgetD c5Pre.pm.assetInvestors "AG1" []
        ++ [{ investor := 3, tokenAmount := 1000, usdtPaid := 1000 * usdtScale,
              timestamp := 7, purchaseId := "P1" }] :=
  purchaseTokens_appends_unconditionally c5Pre 3 7 "AG1" 1000 "P1" c5Post (by rfl)

/-- C9: while paused, `pledgeAsset`, `releaseAsset` and token transfers (the
token contract's pause flag) and `createPledge` and `purchaseTokens` (the
manager's pause flag) always revert with `systemPaused` and change no state;
pausing then unpausing returns the state exactly to what it was, so the
operations afterwards behave as if the system had never been paused.  (For
the role-gated entrypoints the caller is assumed to hold the role, since the
source checks the role before the pause flag; transfers assume nonzero
endpoints, checked before the pause hook.) -/
theorem paused_blocks_and_unpause_restores :
    (∀ (s : TokenState) (caller : Address) (now : Nat) (aid aty de : String)
       (ov : Nat) (pl : Address),
      hasRole s.roles .pledgeManager caller → s.paused = true →
      pledgeAsset s caller now aid aty de ov pl = .error .systemPaused) ∧
    (∀ (s : TokenState) (caller : Address) (aid : String) (hd : Address) (a : Nat),
      hasRole s.roles .pledgeManager caller → s.paused = true →
      tryOp s (releaseAsset s caller aid hd a) = (s, some .systemPaused)) ∧
    (∀ (s : TokenState) (caller dst : Address) (a : Nat),
      caller ≠ 0 → dst ≠ 0 → s.paused = true →
      tryOp s (tokenTransfer s caller dst a) = (s, some .systemPaused)) ∧
    (∀ (s : SysState) (caller : Address) (now : Nat) (agid : String) (cl : Address)
       (aid aty de : String) (ov : Nat) (doc : String),
      hasRole s.pm.roles .operator caller → s.pm.paused = true →
      tryOp s (createPledge s caller now agid cl aid aty de ov doc)
        = (s, some .systemPaused)) ∧
    (∀ (s : SysState) (caller : Address) (now : Nat) (agid : String) (amt : Nat)
       (pid : String), s.pm.paused = true →
      tryOp s (purchaseTokens s caller now agid amt pid) = (s, some .systemPaused)) ∧
    (∀ (s : TokenState) (c1 c2 : Address),
      hasRole s.roles .pauser c1 → hasRole s.roles .pauser c2 → s.paused = false →
      ∃ t1, tokenPause s c1 = .ok t1 ∧ tokenUnpause t1 c2 = .ok s) ∧
    (∀ (s : SysState) (c1 c2 : Address),
      hasRole s.pm.roles .admin c1 → hasRole s.pm.roles .admin c2 → s.pm.paused = false →
      ∃ s1, pmPause s c1 = .ok s1 ∧ pmUnpause s1 c2 = .ok s) := by
  refine ⟨?_, ?_, ?_, ?_, ?_, ?_, ?_⟩
  · intro s caller now aid aty de ov pl hrole hp
    simp [pledgeAsset, hrole, hp]
  · intro s caller aid hd a hrole hp
    simp [releaseAsset, tryOp, hrole, hp]
  · intro s caller dst a hc hd hp
    simp [tokenTransfer, erc20Transfer, tryOp, hc, hd, hp]
  · intro s caller now agid cl aid aty de ov doc hrole hp
    simp [createPledge, tryOp, hrole, hp]
  · intro s caller now agid amt pid hp
    simp [purchaseTokens, tryOp, hp]
  · intro s c1 c2 h1 h2 hp
    obtain ⟨sa, sb, sc, sd, se, sf, sg, sp, sr⟩ := s
    simp only at hp h1 h2
    subst hp
    refine ⟨⟨sa, sb, sc, sd, se, sf, sg, true, sr⟩, ?_, ?_⟩
    · simp [tokenPause, h1]
    · simp [tokenUnpause, h2]
  · intro s c1 c2 h1 h2 hp
    obtain ⟨st, su, spm⟩ := s
    obtain ⟨pa, pb, pc, pd, pe, pf, pg, ph, pp, pr⟩ := spm
    simp only at hp h1 h2
    subst hp
    refine ⟨⟨st, su, ⟨pa, pb, pc, pd, pe, pf, pg, ph, true, pr⟩⟩, ?_, ?_⟩
    · simp [pmPause, h1]
    · simp [pmUnpause, h2]

/-- The paused token state used by the C9 witness. -/
def c9T : TokenState := okOr (tokenPause (initToken 2) 2) (initToken 2)

/-- The system state with the manager paused, used by the C9 witness. -/
def c9S : SysState := okOr (pmPause (initSys 2 2) 2) (initSys 2 2)

/-- Witness for C9 at concrete paused states and a concrete
pause/unpause round trip. -/
theorem paused_blocks_and_unpause_restores_witness :
    pledgeAsset c9T 2 5 "A" "t" "d" 7 2 = .error .systemPaused ∧
    tryOp c9T (releaseAsset c9T 2 "A" 2 0) = (c9T, some .systemPaused) ∧
    tryOp c9T (tokenTransfer c9T 2 3 0) = (c9T, some .systemPaused) ∧
    tryOp c9S (createPledge c9S 2 5 "G" 4 "A" "t" "d" 7 "h") = (c9S, some .systemPaused) ∧
    tryOp c9S (purchaseTokens c9S 3 5 "G" 1 "P") = (c9S, some .systemPaused) ∧
    (∃ t1, tokenPause (initToken 2) 2 = .ok t1 ∧ tokenUnpause t1 2 = .ok (initToken 2)) ∧
    (∃ s1, pmPause (initSys 2 2) 2 = .ok s1 ∧ pmUnpause s1 2 = .ok (initSys 2 2)) :=
  ⟨paused_blocks_and_unpause_restores.1 c9T 2 5 "A" "t" "d" 7 2 (by decide) (by decide),
   paused_blocks_and_unpause_restores.2.1 c9T 2 "A" 2 0 (by decide) (by decide),
   paused_blocks_and_unpause_restores.2.2.1 c9T 2 3 0 (by decide) (by decide) (by decide),
   paused_blocks_and_unpause_restores.2.2.2.1 c9S 2 5 "G" 4 "A" "t" "d" 7 "h"
     (by decide) (by decide),
   paused_blocks_and_unpause_restores.2.2.2.2.1 c9S 3 5 "G" 1 "P" (by decide),
   paused_blocks_and_unpause_restores.2.2.2.2.2.1 (initToken 2) 2 2
     (by decide) (by decide) (by decide),
   paused_blocks_and_unpause_restores.2.2.2.2.2.2 (initSys 2 2) 2 2
     (by decide) (by decide) (by decide)⟩

/-- An `ACTIVE` agreement used by the C10 witness. -/
def c10Agr : PledgeAgreement :=
  { zeroAgreement with
    agreementId := "AGX", client := 4, timestamp := 5, status := .ACTIVE,
    clientPayment := 30 }

/-- A state with an `ACTIVE` agreement and 100 USDT units at the manager,
used by the C10 witness. -/
def c10S : SysState :=
  { initSys 2 2 with
    pm := { initPM 2 2 with pledgeAgreements := [("AGX", c10Agr)] },
    usdt := { initUsdt 2 with balances := [(pmAddr, 100)] } }

/-- Witness for C10: on the concrete state, the client is paid twice. -/
theorem payClient_repeatable_witness :
    ∃ s1 s2 : SysState,
      payClient c10S 2 "AGX" = .ok s1 ∧
      payClient s1 2 "AGX" = .ok s2 ∧
      s1.pm.pledgeAgreements = c10S.pm.pledgeAgreements ∧
      s2.pm.pledgeAgreements = c10S.pm.pledgeAgreements ∧
      s1.pm.totalClientPayments = c10S.pm.totalClientPayments
        + (mgetD c10S.pm.pledgeAgreements "AGX" zeroAgreement).clientPayment ∧
      s2.pm.totalClientPayments = c10S.pm.totalClientPayments
        + 2 * (mgetD c10S.pm.pledgeAgreements "AGX" zeroAgreement).clientPayment ∧
      ((mgetD c10S.pm.pledgeAgreements "AGX" zeroAgreement).client ≠ pmAddr →
        bal s2.usdt.balances (mgetD c10S.pm.pledgeAgreements "AGX" zeroAgreement).client
          = bal c10S.usdt.balances (mgetD c10S.pm.pledgeAgreements "AGX" zeroAgreement).client
            + 2 * (mgetD c10S.pm.pledgeAgreements "AGX" zeroAgreement).clientPayment) :=
  payClient_repeatable c10S 2 2 "AGX" (by decide) (by decide) (by decide) (by decide)
    (by decide) (by decide)

end RWA

